import Mathlib

set_option maxRecDepth 20000

/- Shallow embedding of the inventory reconciliation core of the repository:
   update_ingredients_inventory in main.py, update_ingredient_quantity in
   inventory.py, and the post-meal inventory-change handling in
   recipe_generator.py. Python str.strip and str.lower are modelled for
   ASCII input; the json.loads standard-library call is modelled by an
   executable JSON parser covering the fragment these payloads use:
   null, booleans, integers, strings with backslash escapes, arrays and
   objects. -/

/-- Whitespace characters removed by Python str.strip (ASCII subset),
also the JSON whitespace characters. -/
def isPyWs (c : Char) : Bool :=
  c == ' ' || c == '\t' || c == '\n' || c == '\r'

/-- Models Python str.strip on ASCII strings: drop whitespace from both ends. -/
def pyStrip (s : String) : String :=
  String.mk (((s.toList.dropWhile isPyWs).reverse.dropWhile isPyWs).reverse)

/-- Lowercase one ASCII character, as Python str.lower does. -/
def lowerChar (c : Char) : Char :=
  if 65 ≤ c.toNat ∧ c.toNat ≤ 90 then Char.ofNat (c.toNat + 32) else c

/-- Models Python str.lower on ASCII strings. -/
def pyLower (s : String) : String :=
  String.mk (s.toList.map lowerChar)

/-- JSON values, the shapes json.loads can return for the payloads at hand.
Numbers are modelled as integers: the payloads the claims concern carry
integer quantities only. -/
inductive Json where
  | null
  | bool (b : Bool)
  | num (n : Int)
  | str (s : String)
  | arr (elems : List Json)
  | obj (members : List (String × Json))

/-- Skip JSON whitespace. -/
def skipWs : List Char → List Char
  | [] => []
  | c :: cs => if isPyWs c then skipWs cs else c :: cs

/-- Decode one backslash escape inside a JSON string literal. -/
def escTable (c : Char) : Option Char :=
  if c = '"' then some '"'
  else if c = '\\' then some '\\'
  else if c = '/' then some '/'
  else if c = 'n' then some '\n'
  else if c = 't' then some '\t'
  else if c = 'r' then some '\r'
  else if c = 'b' then some (Char.ofNat 8)
  else if c = 'f' then some (Char.ofNat 12)
  else none

/-- Read the characters of a JSON string literal after its opening quote,
returning the decoded characters and the input after the closing quote. -/
def parseStrChars : List Char → Option (List Char × List Char)
  | [] => none
  | '"' :: rest => some ([], rest)
  | '\\' :: rest =>
    match rest with
    | [] => none
    | e :: rest2 =>
      match escTable e with
      | none => none
      | some c =>
        match parseStrChars rest2 with
        | none => none
        | some (cs, r) => some (c :: cs, r)
  | c :: rest =>
    match parseStrChars rest with
    | none => none
    | some (cs, r) => some (c :: cs, r)

/-- Take a maximal run of decimal digits. -/
def takeDigits : List Char → List Char × List Char
  | [] => ([], [])
  | c :: cs =>
    if c.isDigit then
      let p := takeDigits cs
      (c :: p.1, p.2)
    else ([], c :: cs)

/-- Numeric value of a digit run. -/
def digitsToNat (ds : List Char) : Nat :=
  ds.foldl (fun acc c => acc * 10 + (c.toNat - 48)) 0

mutual

/-- Parse one JSON value; fuel bounds the recursion depth. -/
def parseVal : Nat → List Char → Option (Json × List Char)
  | 0, _ => none
  | fuel + 1, input =>
    match skipWs input with
    | [] => none
    | '"' :: rest =>
      match parseStrChars rest with
      | none => none
      | some (cs, r) => some (Json.str (String.mk cs), r)
    | '[' :: rest =>
      match skipWs rest with
      | ']' :: r => some (Json.arr [], r)
      | _ =>
        match parseItems fuel rest with
        | none => none
        | some (vs, r) => some (Json.arr vs, r)
    | '\x7b' :: rest =>
      match skipWs rest with
      | '\x7d' :: r => some (Json.obj [], r)
      | _ =>
        match parseMembers fuel rest with
        | none => none
        | some (ms, r) => some (Json.obj ms, r)
    | 't' :: 'r' :: 'u' :: 'e' :: r => some (Json.bool true, r)
    | 'f' :: 'a' :: 'l' :: 's' :: 'e' :: r => some (Json.bool false, r)
    | 'n' :: 'u' :: 'l' :: 'l' :: r => some (Json.null, r)
    | '-' :: rest =>
      match takeDigits rest with
      | ([], _) => none
      | (ds, r) => some (Json.num (-(digitsToNat ds : Int)), r)
    | c :: rest =>
      if c.isDigit then
        match takeDigits (c :: rest) with
        | (ds, r) => some (Json.num (digitsToNat ds), r)
      else none

/-- Parse the comma-separated items of a nonempty JSON array, up to and
including the closing bracket. -/
def parseItems : Nat → List Char → Option (List Json × List Char)
  | 0, _ => none
  | fuel + 1, input =>
    match parseVal fuel input with
    | none => none
    | some (v, rest) =>
      match skipWs rest with
      | ',' :: r2 =>
        match parseItems fuel r2 with
        | none => none
        | some (vs, r3) => some (v :: vs, r3)
      | ']' :: r2 => some ([v], r2)
      | _ => none

/-- Parse the members of a nonempty JSON object, up to and including the
closing brace. -/
def parseMembers : Nat → List Char → Option (List (String × Json) × List Char)
  | 0, _ => none
  | fuel + 1, input =>
    match skipWs input with
    | '"' :: rest =>
      match parseStrChars rest with
      | none => none
      | some (k, r1) =>
        match skipWs r1 with
        | ':' :: r2 =>
          match parseVal fuel r2 with
          | none => none
          | some (v, r3) =>
            match skipWs r3 with
            | ',' :: r4 =>
              match parseMembers fuel r4 with
              | none => none
              | some (ms, r5) => some ((String.mk k, v) :: ms, r5)
            | '\x7d' :: r4 => some ([(String.mk k, v)], r4)
            | _ => none
        | _ => none
    | _ => none

end

/-- Models json.loads on the payload fragment: parse one value and require
that only whitespace remains; any other outcome is a parse failure. -/
def parseJson (s : String) : Option Json :=
  match parseVal (2 * s.toList.length + 2) s.toList with
  | none => none
  | some (v, rest) => if (skipWs rest).isEmpty then some v else none

/-- JSON-encode a string value: wrap in quotes, escaping quotes and
backslashes, as json.dumps does for strings without control characters. -/
def escapeChar (c : Char) : List Char :=
  if c = '"' then ['\\', '"']
  else if c = '\\' then ['\\', '\\']
  else [c]

def jsonEncodeStr (s : String) : String :=
  String.mk ('"' :: (s.toList.map escapeChar).flatten ++ ['"'])

/-- Persisted inventory row: user-scoped name, quantity, units, as in the
Ingredients Inventory table read by main.py line 174. -/
structure Row where
  name : String
  quantity : Int
  units : String
deriving DecidableEq

/-- One value of the updated_inventory mapping, from main.py lines 71 to 73
(pydantic model InventoryUpdateItem). -/
structure InventoryUpdateItem where
  quantity : Int
  units : String
deriving DecidableEq

/-- A row-level mutation command sent to the store. The store interface also
offers delete (used by recipe_generator.py), so the type has both shapes. -/
inductive Mutation where
  | update (name : String) (quantity : Int) (units : String)
  | delete (name : String)
deriving DecidableEq

/-- Outcome of one store write, indexed by issue order: the supabase update
returns data (ok), returns no data (not applied), or raises. -/
inductive WriteOutcome where
  | ok
  | notApplied
  | raised (msg : String)
deriving DecidableEq

/-- Loop state of the delta loop in main.py lines 184 to 221, extended with
the trace of issued mutation commands. -/
structure LoopState where
  updated : Nat
  skipped : Nat
  errors : List String
  mutations : List Mutation
deriving DecidableEq

/-- The returned dictionary of main.py lines 223 to 227. -/
structure ReconResult where
  updated : Nat
  skipped : Nat
  errors : List String
deriving DecidableEq

/-- Models main.py lines 180 to 182: a dict built by inserting each row
under its lowercased (not stripped) stored name, mapping to the stored name;
a later row with the same key overwrites an earlier one. -/
def buildIndex (snapshot : List Row) : String → Option String :=
  snapshot.foldl
    (fun m item => fun key =>
      if key = pyLower item.name then some item.name else m key)
    (fun _ => none)

/-- Error string of main.py line 210. -/
def failMsg (canonicalName : String) : String :=
  "Failed to update " ++ canonicalName

/-- Error string of main.py line 219. -/
def raisedMsg (name msg : String) : String :=
  "Error updating " ++ name ++ ": " ++ msg

/-- One iteration of the delta loop, main.py lines 188 to 221: strip and
lowercase the delta name, look it up in the index; on no match increment
skipped; on a match issue the update mutation for the canonical stored name
and, per the store outcome, increment updated or append an error string. -/
def processDelta (index : String → Option String) (store : Nat → WriteOutcome)
    (st : LoopState) (delta : String × InventoryUpdateItem) : LoopState :=
  match index (pyLower (pyStrip delta.1)) with
  | none => { st with skipped := st.skipped + 1 }
  | some canonicalName =>
    let m := Mutation.update canonicalName delta.2.quantity delta.2.units
    match store st.mutations.length with
    | WriteOutcome.ok =>
      { st with updated := st.updated + 1, mutations := st.mutations ++ [m] }
    | WriteOutcome.notApplied =>
      { st with errors := st.errors ++ [failMsg canonicalName],
                mutations := st.mutations ++ [m] }
    | WriteOutcome.raised msg =>
      { st with errors := st.errors ++ [raisedMsg delta.1 msg],
                mutations := st.mutations ++ [m] }

/-- Models main.py update_ingredients_inventory, lines 165 to 227. The
snapshot is the fetched current inventory (an empty list models the falsy
response.data early return at lines 176 to 178; a raising fetch propagates
an exception and returns nothing, so it is outside this function). The
store argument gives the outcome of the k-th issued write. Returns the
result dictionary together with the trace of issued mutation commands. -/
def update_ingredients_inventory (store : Nat → WriteOutcome)
    (snapshot : List Row)
    (updated_inventory : List (String × InventoryUpdateItem)) :
    ReconResult × List Mutation :=
  if snapshot.isEmpty then
    ({ updated := 0, skipped := updated_inventory.length, errors := [] }, [])
  else
    let final := updated_inventory.foldl
      (processDelta (buildIndex snapshot) store) ⟨0, 0, [], []⟩
    ({ updated := final.updated, skipped := final.skipped,
       errors := final.errors }, final.mutations)

/-- A store in which every write returns data. -/
def allOk : Nat → WriteOutcome := fun _ => WriteOutcome.ok

/-- Models inventory.py update_ingredient_quantity, lines 119 to 142: fetch
the row by id (none models the not-found case), add the relative
quantity_change to the stored quantity, clamp a negative sum to zero, and
return the value written by the update. -/
def update_ingredient_quantity (fetched : Option Int) (quantity_change : Int) :
    Option Int :=
  match fetched with
  | none => none
  | some q =>
    let new_quantity := q + quantity_change
    some (if new_quantity < 0 then 0 else new_quantity)

/-- Outcome of handling the post-meal inventory change payload value in
recipe_generator.py: the invalid-JSON error dictionary is returned, a list
of change records is applied, or a non-list value is printed and ignored
with no error reported. -/
inductive ChangesOutcome where
  | malformed
  | applied (records : List Json)
  | ignored

/-- Models recipe_generator.py generate_recipe lines 77 to 81 together with
the list gate of update_ingredients_inventory there, lines 92 to 94: a
textual payload value is parsed exactly once (a parse error is caught by the
surrounding handler and reported as the invalid-JSON result), a list is
applied, and anything else is printed and ignored. -/
def handle_inventory_changes (v : Json) : ChangesOutcome :=
  match v with
  | Json.str s =>
    match parseJson s with
    | none => ChangesOutcome.malformed
    | some (Json.arr l) => ChangesOutcome.applied l
    | some _ => ChangesOutcome.ignored
  | Json.arr l => ChangesOutcome.applied l
  | _ => ChangesOutcome.ignored

/-- Follows the WORDS of claim C8, not the code, for comparison: parse the
textual payload as JSON; if the result is itself a string, parse that string
once more; an array yields its records; a payload not parseable within the
two steps, or still textual after them, yields the malformed error. -/
def spec_normalize (raw : String) : ChangesOutcome :=
  match parseJson raw with
  | none => ChangesOutcome.malformed
  | some (Json.str s) =>
    match parseJson s with
    | none => ChangesOutcome.malformed
    | some (Json.arr l) => ChangesOutcome.applied l
    | some (Json.str _) => ChangesOutcome.malformed
    | some _ => ChangesOutcome.ignored
  | some (Json.arr l) => ChangesOutcome.applied l
  | some _ => ChangesOutcome.ignored

/-- Follows the WORDS of claim C5, not the code, for comparison: an index of
the snapshot keyed by each stored name trimmed and lowercased, mapping to
the canonical stored name. -/
def specTrimmedIndex (snapshot : List Row) (key : String) : Option String :=
  (snapshot.find? (fun r => pyLower (pyStrip r.name) == key)).map Row.name

/-- The single-encoded Onion payload of the spec scenarios: a JSON array of
one object with fields ingredient and quantity. -/
def onionPayload : String :=
  "[\x7b\"ingredient\": \"Onion\", \"quantity\": 0\x7d]"

/-- The parsed form of onionPayload. -/
def onionRecord : Json :=
  Json.obj [("ingredient", Json.str "Onion"), ("quantity", Json.num 0)]

/- Helper lemmas about the index dictionary and the delta loop. -/

/-- Folding rows whose lowercased names all differ from the key leaves the
lookup of that key unchanged. -/
theorem indexStep_skip (l : List Row) : ∀ (m : String → Option String) (key : String),
    (∀ r ∈ l, pyLower r.name ≠ key) →
    List.foldl
      (fun m item => fun key =>
        if key = pyLower item.name then some item.name else m key) m l key
      = m key := by
  induction l with
  | nil => intro m key _; rfl
  | cons a t ih =>
    intro m key h
    have ha : pyLower a.name ≠ key := h a (by simp)
    have ht : ∀ r ∈ t, pyLower r.name ≠ key := fun r hr => h r (by simp [hr])
    rw [List.foldl_cons, ih _ key ht]
    show (if key = pyLower a.name then some a.name else m key) = m key
    exact if_neg (fun e => ha e.symm)

/-- A successful lookup in the folded index comes from a row of the list or
from the initial dictionary. -/
theorem indexAux_some (l : List Row) : ∀ (m : String → Option String) (key canon : String),
    List.foldl
      (fun m item => fun key =>
        if key = pyLower item.name then some item.name else m key) m l key
      = some canon →
    (∃ r ∈ l, r.name = canon ∧ pyLower r.name = key) ∨ m key = some canon := by
  induction l with
  | nil => intro m key canon h; right; exact h
  | cons a t ih =>
    intro m key canon h
    rw [List.foldl_cons] at h
    rcases ih _ key canon h with ⟨r, hr, e1, e2⟩ | h2
    · left; exact ⟨r, by simp [hr], e1, e2⟩
    · by_cases hk : key = pyLower a.name
      · have hs : some a.name = some canon := by
          have h3 : (if key = pyLower a.name then some a.name else m key) = some canon := h2
          rwa [if_pos hk] at h3
        left
        exact ⟨a, by simp, Option.some.inj hs, hk.symm⟩
      · right
        have h3 : (if key = pyLower a.name then some a.name else m key) = some canon := h2
        rwa [if_neg hk] at h3

/-- A key carried by some row of the list is found in the folded index. -/
theorem indexAux_isSome (l : List Row) : ∀ (m : String → Option String) (key : String),
    (∃ r ∈ l, pyLower r.name = key) →
    (List.foldl
      (fun m item => fun key =>
        if key = pyLower item.name then some item.name else m key) m l key).isSome := by
  induction l with
  | nil =>
    rintro m key ⟨r, hr, _⟩
    cases hr
  | cons a t ih =>
    rintro m key ⟨r, hr, he⟩
    rw [List.foldl_cons]
    by_cases hx : ∃ r2 ∈ t, pyLower r2.name = key
    · exact ih _ key hx
    · have hnone : ∀ r2 ∈ t, pyLower r2.name ≠ key := by push_neg at hx; exact hx
      rw [indexStep_skip t _ key hnone]
      rcases List.mem_cons.mp hr with rfl | hrt
      · show (if key = pyLower r.name then some r.name else m key).isSome
        rw [if_pos he.symm]; rfl
      · exact absurd he (hnone r hrt)

/-- The index of main.py lines 180 to 182 misses a key exactly when no row
has that lowercased name. -/
theorem buildIndex_none (snapshot : List Row) (key : String)
    (h : ∀ r ∈ snapshot, pyLower r.name ≠ key) : buildIndex snapshot key = none := by
  unfold buildIndex
  rw [indexStep_skip snapshot _ key h]

/-- A hit in the index returns the canonical stored name of a row whose
lowercased name is the key. -/
theorem buildIndex_some_mem (snapshot : List Row) (key canon : String)
    (h : buildIndex snapshot key = some canon) :
    ∃ r ∈ snapshot, r.name = canon ∧ pyLower r.name = key := by
  unfold buildIndex at h
  rcases indexAux_some snapshot _ key canon h with h1 | h2
  · exact h1
  · exact absurd h2 (by simp)

/-- The index hits a key exactly when some row has that lowercased name. -/
theorem buildIndex_isSome_iff (snapshot : List Row) (key : String) :
    (buildIndex snapshot key).isSome ↔ ∃ r ∈ snapshot, pyLower r.name = key := by
  constructor
  · intro h
    rcases Option.isSome_iff_exists.mp h with ⟨canon, hc⟩
    rcases buildIndex_some_mem snapshot key canon hc with ⟨r, hr, _, e⟩
    exact ⟨r, hr, e⟩
  · intro h
    unfold buildIndex
    exact indexAux_isSome snapshot _ key h

/-- A matched delta always issues exactly one update mutation for the
canonical name, whatever the store outcome. -/
theorem processDelta_matched_mutations (index : String → Option String)
    (store : Nat → WriteOutcome) (st : LoopState) (name : String)
    (it : InventoryUpdateItem) (canon : String)
    (h : index (pyLower (pyStrip name)) = some canon) :
    (processDelta index store st (name, it)).mutations
      = st.mutations ++ [Mutation.update canon it.quantity it.units] := by
  unfold processDelta
  simp only [h]
  cases hs : store st.mutations.length <;> rfl

/-- Each delta contributes exactly one outcome: the sum of the updated and
skipped counters and the error count grows by one per processed delta. -/
theorem processDelta_sum (index : String → Option String) (store : Nat → WriteOutcome)
    (st : LoopState) (d : String × InventoryUpdateItem) :
    (processDelta index store st d).updated + (processDelta index store st d).skipped
      + (processDelta index store st d).errors.length
    = st.updated + st.skipped + st.errors.length + 1 := by
  unfold processDelta
  cases h : index (pyLower (pyStrip d.1)) with
  | none => simp; omega
  | some canon =>
    cases hs : store st.mutations.length <;> simp [List.length_append] <;> omega

/-- Outcome conservation over the whole delta loop. -/
theorem recon_foldl_sum (index : String → Option String) (store : Nat → WriteOutcome)
    (l : List (String × InventoryUpdateItem)) : ∀ (st : LoopState),
    (List.foldl (processDelta index store) st l).updated
      + (List.foldl (processDelta index store) st l).skipped
      + (List.foldl (processDelta index store) st l).errors.length
    = st.updated + st.skipped + st.errors.length + l.length := by
  induction l with
  | nil => intro st; simp
  | cons a t ih =>
    intro st
    rw [List.foldl_cons, ih (processDelta index store st a), processDelta_sum]
    simp
    omega

/-- One loop step either leaves the mutation trace unchanged or appends one
update mutation built from the delta and the canonical matched name. -/
theorem processDelta_mut_cases (index : String → Option String)
    (store : Nat → WriteOutcome) (st : LoopState) (d : String × InventoryUpdateItem) :
    (processDelta index store st d).mutations = st.mutations
    ∨ ∃ canon, index (pyLower (pyStrip d.1)) = some canon ∧
        (processDelta index store st d).mutations
          = st.mutations ++ [Mutation.update canon d.2.quantity d.2.units] := by
  unfold processDelta
  cases h : index (pyLower (pyStrip d.1)) with
  | none => left; rfl
  | some canon =>
    right
    refine ⟨canon, rfl, ?_⟩
    cases hs : store st.mutations.length <;> rfl

/-- Every mutation in the trace after the loop either was there initially or
is the update mutation of some processed delta, carrying that delta's
quantity and units unchanged. -/
theorem recon_foldl_mutations_mem (index : String → Option String)
    (store : Nat → WriteOutcome) (l : List (String × InventoryUpdateItem)) :
    ∀ (st : LoopState) (m : Mutation),
    m ∈ (List.foldl (processDelta index store) st l).mutations →
    m ∈ st.mutations ∨ ∃ p ∈ l, ∃ canon,
      index (pyLower (pyStrip p.1)) = some canon ∧
      m = Mutation.update canon p.2.quantity p.2.units := by
  induction l with
  | nil => intro st m h; left; exact h
  | cons a t ih =>
    intro st m h
    rw [List.foldl_cons] at h
    rcases ih _ m h with hmem | ⟨p, hp, canon, hc, he⟩
    · rcases processDelta_mut_cases index store st a with e | ⟨canon, hc, e⟩
      · rw [e] at hmem; left; exact hmem
      · rw [e] at hmem
        rcases List.mem_append.mp hmem with h1 | h2
        · left; exact h1
        · right; exact ⟨a, by simp, canon, hc, by simpa using h2⟩
    · right; exact ⟨p, by simp [hp], canon, hc, he⟩

/- Claim theorems. -/

/-- Claim C9: update_ingredient_quantity interprets its integer argument as
a relative delta added to the stored value, and the quantity written to an
existing row with current quantity q and change d is max 0 (q + d). -/
theorem relative_delta_clamped (q d : Int) :
    update_ingredient_quantity (some q) d = some (max 0 (q + d)) := by
  unfold update_ingredient_quantity
  simp only [Option.some.injEq]
  split <;> omega

/-- Claim C3: a delta whose stripped and lowercased ingredient name is the
lowercased name of no row in the snapshot is skipped: the loop state gains
exactly one skip, and no mutation command is issued, so no row is inserted
and all other counters and the trace are untouched by that delta. -/
theorem unmatched_delta_skipped (snapshot : List Row) (store : Nat → WriteOutcome)
    (st : LoopState) (name : String) (it : InventoryUpdateItem)
    (h : ∀ r ∈ snapshot, pyLower r.name ≠ pyLower (pyStrip name)) :
    processDelta (buildIndex snapshot) store st (name, it)
      = { st with skipped := st.skipped + 1 } := by
  have hnone : buildIndex snapshot (pyLower (pyStrip name)) = none :=
    buildIndex_none snapshot _ h
  unfold processDelta
  simp only [hnone]

/-- Witness for claim C3 at a concrete input. -/
theorem unmatched_delta_skipped_witness :
    processDelta (buildIndex [⟨"Tomato", 4, "g"⟩]) allOk ⟨0, 0, [], []⟩
        ("Garlic", ⟨3, "g"⟩)
      = ⟨0, 1, [], []⟩ :=
  unmatched_delta_skipped [⟨"Tomato", 4, "g"⟩] allOk ⟨0, 0, [], []⟩ "Garlic"
    ⟨3, "g"⟩ (by decide)

/-- Claim C4: a matched delta whose quantity is exactly 0 issues an update
mutation setting the canonical row's quantity to 0, and the reconciler
never issues a delete mutation in any call, so the row is kept. -/
theorem zero_quantity_update_not_delete (snapshot : List Row)
    (store : Nat → WriteOutcome) (st : LoopState) (name : String)
    (it : InventoryUpdateItem) (canon : String)
    (hmatch : buildIndex snapshot (pyLower (pyStrip name)) = some canon)
    (hzero : it.quantity = 0) :
    (processDelta (buildIndex snapshot) store st (name, it)).mutations
        = st.mutations ++ [Mutation.update canon 0 it.units]
    ∧ ∀ (store2 : Nat → WriteOutcome) (snap2 : List Row)
        (deltas : List (String × InventoryUpdateItem)),
        ∀ m ∈ (update_ingredients_inventory store2 snap2 deltas).2,
          ∃ n qty u, m = Mutation.update n qty u := by
  constructor
  · rw [processDelta_matched_mutations (buildIndex snapshot) store st name it canon hmatch,
      hzero]
  · intro store2 snap2 deltas m hm
    unfold update_ingredients_inventory at hm
    by_cases he : snap2.isEmpty
    · rw [if_pos he] at hm
      exact absurd hm (by simp)
    · rw [if_neg he] at hm
      rcases recon_foldl_mutations_mem (buildIndex snap2) store2 deltas
          ⟨0, 0, [], []⟩ m hm with h0 | ⟨p, _, canon2, _, he2⟩
      · exact absurd h0 (by simp)
      · exact ⟨canon2, p.2.quantity, p.2.units, he2⟩

/-- Witness for claim C4 at a concrete input. -/
theorem zero_quantity_update_not_delete_witness :
    (processDelta (buildIndex [⟨"Onion", 2, "g"⟩]) allOk ⟨0, 0, [], []⟩
        ("Onion", ⟨0, "g"⟩)).mutations
      = [Mutation.update "Onion" 0 "g"] :=
  (zero_quantity_update_not_delete [⟨"Onion", 2, "g"⟩] allOk ⟨0, 0, [], []⟩
    "Onion" ⟨0, "g"⟩ "Onion" (by decide) rfl).1

/-- Claim C7: when the store reports that a matched delta's write did not
apply, the loop appends one error string, leaves updated and skipped
unchanged, and the fold continues over all remaining deltas from the new
state, so a single write failure never aborts the call. -/
theorem write_failure_fail_soft (index : String → Option String)
    (store : Nat → WriteOutcome) (st : LoopState) (name : String)
    (it : InventoryUpdateItem) (canon : String)
    (rest : List (String × InventoryUpdateItem))
    (hmatch : index (pyLower (pyStrip name)) = some canon)
    (hfail : store st.mutations.length = WriteOutcome.notApplied) :
    (processDelta index store st (name, it)).updated = st.updated
    ∧ (processDelta index store st (name, it)).skipped = st.skipped
    ∧ (processDelta index store st (name, it)).errors = st.errors ++ [failMsg canon]
    ∧ List.foldl (processDelta index store) st ((name, it) :: rest)
        = List.foldl (processDelta index store)
            (processDelta index store st (name, it)) rest := by
  refine ⟨?_, ?_, ?_, List.foldl_cons _ _⟩ <;>
    (unfold processDelta; simp only [hmatch, hfail])

/-- Witness for claim C7 at a concrete input. -/
theorem write_failure_fail_soft_witness :
    (processDelta (buildIndex [⟨"Onion", 2, "g"⟩])
        (fun _ => WriteOutcome.notApplied) ⟨0, 0, [], []⟩
        ("Onion", ⟨1, "g"⟩)).errors
      = ["Failed to update Onion"] := by
  have h := write_failure_fail_soft (buildIndex [⟨"Onion", 2, "g"⟩])
    (fun _ => WriteOutcome.notApplied) ⟨0, 0, [], []⟩ "Onion" ⟨1, "g"⟩ "Onion"
    [] (by decide) rfl
  simpa using h.2.2.1

/-- Claim C10: when the snapshot fetch returns at least one row, every entry
of the delta mapping contributes exactly one outcome, so updated plus
skipped plus the number of error strings equals the number of entries. -/
theorem outcome_conservation (store : Nat → WriteOutcome) (snapshot : List Row)
    (deltas : List (String × InventoryUpdateItem)) (h : snapshot ≠ []) :
    (update_ingredients_inventory store snapshot deltas).1.updated
      + (update_ingredients_inventory store snapshot deltas).1.skipped
      + (update_ingredients_inventory store snapshot deltas).1.errors.length
    = deltas.length := by
  have he : snapshot.isEmpty = false := by
    cases snapshot with
    | nil => exact absurd rfl h
    | cons a t => rfl
  unfold update_ingredients_inventory
  rw [he]
  simpa using recon_foldl_sum (buildIndex snapshot) store deltas ⟨0, 0, [], []⟩

/-- Witness for claim C10 at a concrete input. -/
theorem outcome_conservation_witness :
    (update_ingredients_inventory allOk [⟨"Tomato", 4, "g"⟩]
        [("Tomato", ⟨1, "g"⟩), ("Garlic", ⟨3, "g"⟩)]).1.updated
      + (update_ingredients_inventory allOk [⟨"Tomato", 4, "g"⟩]
        [("Tomato", ⟨1, "g"⟩), ("Garlic", ⟨3, "g"⟩)]).1.skipped
      + (update_ingredients_inventory allOk [⟨"Tomato", 4, "g"⟩]
        [("Tomato", ⟨1, "g"⟩), ("Garlic", ⟨3, "g"⟩)]).1.errors.length
    = 2 :=
  outcome_conservation allOk [⟨"Tomato", 4, "g"⟩]
    [("Tomato", ⟨1, "g"⟩), ("Garlic", ⟨3, "g"⟩)] (by decide)

/-- Claim C1 fails on the code: a matched delta with quantity -5 produces an
update mutation that writes -5, not 0; update_ingredients_inventory in
main.py applies no clamping. -/
theorem quantity_not_clamped_counterexample :
    (update_ingredients_inventory allOk [⟨"Onion", 2, "g"⟩]
        [("Onion", ⟨-5, "g"⟩)]).2
      = [Mutation.update "Onion" (-5) "g"]
    ∧ (-5 : Int) < 0 ∧ (-5 : Int) ≠ 0 := by
  refine ⟨by decide, by decide, by decide⟩

/-- Claim C1 amended: every update mutation issued by
update_ingredients_inventory carries the matched delta's quantity and units
unchanged; in particular a negative quantity is passed to the store as is,
with no clamping to zero. -/
theorem quantity_passthrough_unclamped (store : Nat → WriteOutcome)
    (snapshot : List Row) (deltas : List (String × InventoryUpdateItem))
    (m : Mutation)
    (hm : m ∈ (update_ingredients_inventory store snapshot deltas).2) :
    ∃ p ∈ deltas, ∃ canon,
      buildIndex snapshot (pyLower (pyStrip p.1)) = some canon ∧
      m = Mutation.update canon p.2.quantity p.2.units := by
  unfold update_ingredients_inventory at hm
  by_cases he : snapshot.isEmpty
  · rw [if_pos he] at hm
    exact absurd hm (by simp)
  · rw [if_neg he] at hm
    rcases recon_foldl_mutations_mem (buildIndex snapshot) store deltas
        ⟨0, 0, [], []⟩ m hm with h0 | hex
    · exact absurd h0 (by simp)
    · exact hex

/-- Witness for the amended claim C1 at a concrete input. -/
theorem quantity_passthrough_unclamped_witness :
    ∃ p ∈ [("Onion", (⟨-5, "g"⟩ : InventoryUpdateItem))], ∃ canon,
      buildIndex [⟨"Onion", 2, "g"⟩] (pyLower (pyStrip p.1)) = some canon ∧
      Mutation.update "Onion" (-5) "g"
        = Mutation.update canon p.2.quantity p.2.units :=
  quantity_passthrough_unclamped allOk [⟨"Onion", 2, "g"⟩]
    [("Onion", ⟨-5, "g"⟩)] (Mutation.update "Onion" (-5) "g") (by decide)

/-- Claim C2 fails on the code: two deltas whose names differ only in case
and surrounding whitespace are distinct dict keys, and each issues its own
update mutation and increments updated, so the call reports updated = 2 and
the trace holds two mutations, not one. -/
theorem duplicate_names_two_mutations_counterexample :
    update_ingredients_inventory allOk [⟨"Carrot", 5, "g"⟩]
        [(" Carrot", ⟨1, "g"⟩), ("carrot ", ⟨2, "g"⟩)]
      = (⟨2, 0, []⟩,
         [Mutation.update "Carrot" 1 "g", Mutation.update "Carrot" 2 "g"])
    ∧ (2 : Nat) ≠ 1 := by
  refine ⟨by decide, by decide⟩

/-- Claim C2 amended: for a batch of two entries that both match the same
stored row after stripping and lowercasing, the reconciler issues one update
mutation per entry, in input order and both targeting the canonical stored
name, and reports updated = 2; the final persisted value is the one carried
by the last mutation, so last write wins only at the store level. -/
theorem duplicate_names_each_entry_applied (row : Row) (n1 n2 : String)
    (it1 it2 : InventoryUpdateItem)
    (h1 : pyLower (pyStrip n1) = pyLower row.name)
    (h2 : pyLower (pyStrip n2) = pyLower row.name) :
    update_ingredients_inventory allOk [row] [(n1, it1), (n2, it2)]
      = (⟨2, 0, []⟩,
         [Mutation.update row.name it1.quantity it1.units,
          Mutation.update row.name it2.quantity it2.units]) := by
  have e1 : buildIndex [row] (pyLower (pyStrip n1)) = some row.name := by
    unfold buildIndex
    rw [List.foldl_cons]
    show (if pyLower (pyStrip n1) = pyLower row.name
        then some row.name else none) = some row.name
    rw [if_pos h1]
  have e2 : buildIndex [row] (pyLower (pyStrip n2)) = some row.name := by
    unfold buildIndex
    rw [List.foldl_cons]
    show (if pyLower (pyStrip n2) = pyLower row.name
        then some row.name else none) = some row.name
    rw [if_pos h2]
  unfold update_ingredients_inventory
  rw [if_neg (by simp)]
  simp only [List.foldl_cons, List.foldl_nil]
  unfold processDelta
  simp only [e1, e2]
  rfl

/-- Witness for the amended claim C2 at a concrete input. -/
theorem duplicate_names_each_entry_applied_witness :
    update_ingredients_inventory allOk [⟨"Carrot", 5, "g"⟩]
        [(" Carrot", ⟨1, "kg"⟩), ("carrot ", ⟨2, "kg"⟩)]
      = (⟨2, 0, []⟩,
         [Mutation.update "Carrot" 1 "kg", Mutation.update "Carrot" 2 "kg"]) :=
  duplicate_names_each_entry_applied ⟨"Carrot", 5, "g"⟩ " Carrot" "carrot "
    ⟨1, "kg"⟩ ⟨2, "kg"⟩ (by decide) (by decide)

/-- Claim C5 fails on the code: the index keys stored names lowercased but
NOT stripped, so a stored name with surrounding whitespace is never matched
by a delta whose trimmed lowercase name equals the row's trimmed lowercase
name; the spec-worded trimmed index matches where the code's index misses,
and the call skips the delta. -/
theorem index_not_trimmed_counterexample :
    specTrimmedIndex [⟨" Carrot", 5, "g"⟩] (pyLower (pyStrip "Carrot"))
        = some " Carrot"
    ∧ buildIndex [⟨" Carrot", 5, "g"⟩] (pyLower (pyStrip "Carrot")) = none
    ∧ (update_ingredients_inventory allOk [⟨" Carrot", 5, "g"⟩]
        [("Carrot", ⟨3, "g"⟩)]).1
      = ⟨0, 1, []⟩ := by
  refine ⟨by decide, by decide, by decide⟩

/-- Claim C5 amended: the snapshot index is keyed by each stored name
lowercased but not stripped, mapping to the canonical stored name; a delta
is looked up by its stripped lowercased name; a delta matches exactly when
its stripped lowercase name equals the lowercase (unstripped) name of some
row, and the issued mutation targets the canonical stored name. -/
theorem matching_rule_amended (snapshot : List Row) (key : String) :
    ((buildIndex snapshot key).isSome ↔ ∃ r ∈ snapshot, pyLower r.name = key)
    ∧ (∀ canon, buildIndex snapshot key = some canon →
        ∃ r ∈ snapshot, r.name = canon ∧ pyLower r.name = key)
    ∧ (∀ (index : String → Option String) (store : Nat → WriteOutcome)
        (st : LoopState) (name : String) (it : InventoryUpdateItem)
        (canon : String),
        index (pyLower (pyStrip name)) = some canon →
        (processDelta index store st (name, it)).mutations
          = st.mutations ++ [Mutation.update canon it.quantity it.units]) := by
  refine ⟨buildIndex_isSome_iff snapshot key,
    fun canon hc => buildIndex_some_mem snapshot key canon hc,
    fun index store st name it canon h =>
      processDelta_matched_mutations index store st name it canon h⟩

/-- Witness for the amended claim C5 at a concrete input. -/
theorem matching_rule_amended_witness :
    (buildIndex [⟨"Carrot", 5, "g"⟩] "carrot").isSome
    ∧ (processDelta (buildIndex [⟨"Carrot", 5, "g"⟩]) allOk ⟨0, 0, [], []⟩
        (" Carrot", ⟨2, "g"⟩)).mutations
      = [Mutation.update "Carrot" 2 "g"] := by
  constructor
  · exact (matching_rule_amended [⟨"Carrot", 5, "g"⟩] "carrot").1.mpr
      ⟨⟨"Carrot", 5, "g"⟩, by simp, by decide⟩
  · have h := (matching_rule_amended [⟨"Carrot", 5, "g"⟩] "carrot").2.2
      (buildIndex [⟨"Carrot", 5, "g"⟩]) allOk ⟨0, 0, [], []⟩ " Carrot"
      ⟨2, "g"⟩ "Carrot" (by decide)
    simpa using h

/-- Claim C6 fails on the code: with no current inventory rows the call
returns updated = 0, skipped = number of deltas and an EMPTY error list,
not a single diagnostic error. -/
theorem empty_snapshot_no_error_counterexample :
    update_ingredients_inventory allOk [] [("Tomato", ⟨1, "g"⟩)]
        = (⟨0, 1, []⟩, [])
    ∧ (update_ingredients_inventory allOk []
        [("Tomato", ⟨1, "g"⟩)]).1.errors.length ≠ 1 := by
  refine ⟨by decide, by decide⟩

/-- Claim C6 amended: when the snapshot fetch yields no rows the call
returns updated = 0, skipped equal to the total number of deltas, an empty
error list, and issues no mutation; a raising fetch instead propagates the
exception to the endpoint rather than returning a result. -/
theorem empty_snapshot_result (store : Nat → WriteOutcome)
    (deltas : List (String × InventoryUpdateItem)) :
    update_ingredients_inventory store [] deltas
      = (⟨0, deltas.length, []⟩, []) := rfl

/-- Claim C8 fails on the code: the payload value is parsed at most once.
The doubly JSON-encoded Onion payload parses to a string which itself
parses to the one-record array, yet the code leaves it as a string and
silently ignores it instead of applying the records, and the triply
encoded payload is likewise silently ignored instead of yielding the
malformed-JSON error; the spec-worded two-step normalizer disagrees with
the code on both. -/
theorem double_encoded_not_unwrapped_counterexample :
    parseJson (jsonEncodeStr onionPayload) = some (Json.str onionPayload)
    ∧ parseJson onionPayload = some (Json.arr [onionRecord])
    ∧ handle_inventory_changes (Json.str (jsonEncodeStr onionPayload))
        = ChangesOutcome.ignored
    ∧ spec_normalize (jsonEncodeStr onionPayload)
        = ChangesOutcome.applied [onionRecord]
    ∧ handle_inventory_changes
        (Json.str (jsonEncodeStr (jsonEncodeStr onionPayload)))
        = ChangesOutcome.ignored
    ∧ spec_normalize (jsonEncodeStr (jsonEncodeStr onionPayload))
        = ChangesOutcome.malformed := by
  refine ⟨rfl, rfl, rfl, rfl, rfl, rfl⟩

/-- Claim C8 amended: a textual payload value is parsed exactly once, with
no exception reaching the caller: a failed parse yields the malformed-JSON
error result, a parse producing an array yields exactly that array's
records, and any other parse result, including a still-encoded string, is
silently ignored with no error and no records. -/
theorem payload_single_parse (s : String) :
    (parseJson s = none →
      handle_inventory_changes (Json.str s) = ChangesOutcome.malformed)
    ∧ (∀ l, parseJson s = some (Json.arr l) →
        handle_inventory_changes (Json.str s) = ChangesOutcome.applied l)
    ∧ (∀ j, parseJson s = some j → (∀ l, j ≠ Json.arr l) →
        handle_inventory_changes (Json.str s) = ChangesOutcome.ignored) := by
  refine ⟨fun h => ?_, fun l h => ?_, fun j h hj => ?_⟩
  · simp [handle_inventory_changes, h]
  · simp [handle_inventory_changes, h]
  · cases j with
    | arr l => exact absurd rfl (hj l)
    | null => simp [handle_inventory_changes, h]
    | bool b => simp [handle_inventory_changes, h]
    | num n => simp [handle_inventory_changes, h]
    | str s2 => simp [handle_inventory_changes, h]
    | obj ms => simp [handle_inventory_changes, h]

/-- Witness for the amended claim C8 at a concrete input. -/
theorem payload_single_parse_witness :
    handle_inventory_changes (Json.str onionPayload)
      = ChangesOutcome.applied [onionRecord] :=
  (payload_single_parse onionPayload).2.1 [onionRecord] rfl
